import Mathlib

/-!
Verification of the ACL-sync reconciliation engine in `syncACLentries.py`.

The script fetches ACL entries from several Fastly services, merges them
into one consolidated dictionary keyed by IP, and then diffs that
consolidated dictionary against each service's live entries to produce a
batched list of create/update operations.

We give a shallow embedding of the pure core: the JSON-ish field values,
the normalization step, the merge loop of `getACLentries`, the
existing-entry dictionary and diff loop of `updateACLentries`, the
write-suppression guard, the `check_r` status check, and the action trace
of the `__main__` block.
-/

set_option autoImplicit false

namespace SyncACL

/-- A JSON-ish field value as it appears in the decoded API response:
`null`, an integer, or a string.  (These are the only shapes the script's
`subnet`/`comment` fields take.) -/
inductive Val where
  | null : Val
  | int : Int → Val
  | str : String → Val
  deriving DecidableEq, Repr

/-- Python truthiness for the values above: `None`, `0` and `""` are falsy,
everything else truthy.  This is the test performed by `if not acl["subnet"]`
and `if not acl["comment"]` on lines 59 and 61. -/
def Val.falsy : Val → Bool
  | .null => true
  | .int n => n == 0
  | .str s => s == ""

/-- A raw ACL entry as decoded from the entries-listing response consumed by
`getACLentries`: an `ip` plus possibly-null `subnet` and `comment`. -/
structure RawEntry where
  ip : String
  subnet : Val
  comment : Val
  deriving DecidableEq, Repr

/-- Line 59-60 of the source: `if not acl["subnet"]: acl["subnet"] = 32`. -/
def normalizeSubnet (v : Val) : Val :=
  if v.falsy then Val.int 32 else v

/-- Line 61-62 of the source: `if not acl["comment"]: acl["comment"] = "None"`. -/
def normalizeComment (v : Val) : Val :=
  if v.falsy then Val.str "None" else v

/-- The per-IP record stored in the consolidated dictionary `aclENTRIES`:
`{"subnet": ..., "comment": ...}` (line 79). -/
structure ConsEntry where
  subnet : Val
  comment : Val
  deriving DecidableEq, Repr

/-- The consolidated dictionary `aclENTRIES`, modelled as an insertion-ordered
association list from IP to `ConsEntry`, mirroring a Python `dict`. -/
abbrev ConsSet := List (String × ConsEntry)

/-- Dictionary key lookup (`aclIP in aclENTRIES` / `aclENTRIES[aclIP]`):
first binding for the key, if any. -/
def lookupIP : ConsSet → String → Option ConsEntry
  | [], _ => none
  | (k, v) :: rest, ip => if k = ip then some v else lookupIP rest ip

/-- Dictionary value assignment to an existing key
(`aclENTRIES[aclIP]["subnet"] = ...`): replaces the value at the first
binding of the key, keeping its position, as a Python dict does. -/
def updateIP : ConsSet → String → ConsEntry → ConsSet
  | [], _, _ => []
  | (k, w) :: rest, ip, v =>
      if k = ip then (k, v) :: rest else (k, w) :: updateIP rest ip v

/-- One iteration of the merge loop in `getACLentries` (lines 56-79):
normalize the raw entry, then either insert it fresh, skip an exact
duplicate, or fill each field independently when the existing value is the
string `"None"` and the incoming one is not (lines 68-79). -/
def mergeEntry (aclENTRIES : ConsSet) (acl : RawEntry) : ConsSet :=
  let aclSUBNET := normalizeSubnet acl.subnet
  let aclCOMMENT := normalizeComment acl.comment
  let aclIP := acl.ip
  match lookupIP aclENTRIES aclIP with
  | some cur =>
      if cur.subnet = aclSUBNET ∧ cur.comment = aclCOMMENT then
        aclENTRIES
      else
        let newSubnet :=
          if cur.subnet = Val.str "None" ∧ aclSUBNET ≠ Val.str "None" then
            aclSUBNET
          else cur.subnet
        let newComment :=
          if cur.comment = Val.str "None" ∧ aclCOMMENT ≠ Val.str "None" then
            aclCOMMENT
          else cur.comment
        updateIP aclENTRIES aclIP { subnet := newSubnet, comment := newComment }
  | none =>
      aclENTRIES ++ [(aclIP, { subnet := aclSUBNET, comment := aclCOMMENT })]

/-- The whole merge loop of `getACLentries` over one fetched entries list,
folded into the running consolidated dictionary. -/
def mergeAll (fetched : List RawEntry) (aclENTRIES : ConsSet) : ConsSet :=
  fetched.foldl mergeEntry aclENTRIES

/-- A raw live entry as decoded in `updateACLentries` (lines 96-101): the
server also reports its opaque entry `id`. -/
structure LiveRaw where
  ip : String
  id : String
  subnet : Val
  comment : Val
  deriving DecidableEq, Repr

/-- The value stored in `existingACLEntries` for one IP (lines 97-101). -/
structure LiveVal where
  id : String
  subnet : Val
  comment : Val
  deriving DecidableEq, Repr

/-- The dictionary `existingACLEntries`, keyed by IP. -/
abbrev LiveMap := List (String × LiveVal)

/-- Python dict assignment `existingACLEntries[acl["ip"]] = {...}`: replace
in place when the key exists, append otherwise. -/
def dictInsert : LiveMap → String → LiveVal → LiveMap
  | [], k, v => [(k, v)]
  | (k', v') :: rest, k, v =>
      if k' = k then (k', v) :: rest else (k', v') :: dictInsert rest k v

/-- Lines 95-101: build `existingACLEntries` from the fetched live entries,
copying `id`, `subnet` and `comment` verbatim — note no normalization is
applied here. -/
def buildExisting (fetched : List LiveRaw) : LiveMap :=
  fetched.foldl (fun m acl => dictInsert m acl.ip ⟨acl.id, acl.subnet, acl.comment⟩) []

/-- Lookup in `existingACLEntries`. -/
def lookupLive : LiveMap → String → Option LiveVal
  | [], _ => none
  | (k, v) :: rest, ip => if k = ip then some v else lookupLive rest ip

/-- One element of the `payload` list built on lines 103-120: either a
`create` dict or an `update` dict carrying the server-assigned `id`. -/
inductive SyncOp where
  | create (ip : String) (subnet : Val) (comment : Val)
  | update (ip : String) (subnet : Val) (comment : Val) (id : String)
  deriving DecidableEq, Repr

/-- The `ip` field of a planned operation. -/
def SyncOp.opIP : SyncOp → String
  | .create ip _ _ => ip
  | .update ip _ _ _ => ip

/-- The body of one iteration of the planning loop (lines 105-120): skip when
the existing entry's subnet and comment both match, emit an `update` with the
existing entry's id when they differ, emit a `create` when the IP is absent
from `existingACLEntries`. -/
def planEntry (existingACLEntries : LiveMap) (ip : String) (ce : ConsEntry) :
    List SyncOp :=
  match lookupLive existingACLEntries ip with
  | some lv =>
      if ce.subnet = lv.subnet ∧ ce.comment = lv.comment then []
      else [SyncOp.update ip ce.subnet ce.comment lv.id]
  | none => [SyncOp.create ip ce.subnet ce.comment]

/-- The planning loop of `updateACLentries` (lines 103-120): iterate the
consolidated dictionary in order, appending each IP's operations to `payload`. -/
def planOps (aclENTRIES : ConsSet) (existingACLEntries : LiveMap) : List SyncOp :=
  aclENTRIES.foldl (fun payload pr => payload ++ planEntry existingACLEntries pr.1 pr.2) []

/-- The single batched PATCH call issued on lines 136-138, carrying the
planned payload. -/
structure WriteCall where
  entries : List SyncOp
  deriving DecidableEq, Repr

/-- The apply phase of `updateACLentries` after the live entries are fetched
(lines 103-140): plan the payload, and issue the PATCH write only when the
payload is non-empty (`if len(payload) == 0: return`, lines 125-126). -/
def updateACLapplyWrites (aclENTRIES : ConsSet) (fetched : List LiveRaw) :
    List WriteCall :=
  let existingACLEntries := buildExisting fetched
  let payload := planOps aclENTRIES existingACLEntries
  if payload.length = 0 then [] else [⟨payload⟩]

/-- An HTTP response as seen by `check_r`: status code and raw body text. -/
structure Response where
  status : Nat
  text : String
  deriving DecidableEq, Repr

/-- Outcome of `check_r`: either fall through, or terminate the process with
an exit code after printing some lines. -/
inductive CheckResult where
  | ok
  | abort (exitCode : Nat) (printed : List String)
  deriving DecidableEq, Repr

/-- Lines 22-26 of the source: if the status code is not 200, print the error
message and the raw response text and exit with status 1; otherwise continue. -/
def check_r (r : Response) (errormsg : String) : CheckResult :=
  if r.status ≠ 200 then CheckResult.abort 1 [errormsg, r.text]
  else CheckResult.ok

/-- The error message passed to `check_r` for the entries fetch (line 54). -/
def entriesFetchErrMsg (svcID aclNAME : String) : String :=
  "Getting ACL entries for ACL " ++ aclNAME ++ " from service " ++ svcID ++
    " failed. Exiting..."

/-- The entries-fetch-and-merge stage of `getACLentries` (lines 51-79), given
the response of the entries request and its decoded body: `check_r` first,
and only on success run the merge loop over the running consolidated set. -/
def getACLentriesRun (svcID aclNAME : String) (resp : Response)
    (fetched : List RawEntry) (aclENTRIES : ConsSet) :
    Except (Nat × List String) ConsSet :=
  match check_r resp (entriesFetchErrMsg svcID aclNAME) with
  | CheckResult.abort code printed => Except.error (code, printed)
  | CheckResult.ok => Except.ok (mergeAll fetched aclENTRIES)

/-- One observable action of the `__main__` block (lines 154-167). -/
inductive MainAction where
  | printLine (s : String)
  | fetchMergeCall (svc aclname : String)
  | planApplyCall (svc aclname : String)
  | exitCode (n : Nat)
  deriving DecidableEq, Repr

/-- Whether an action is one of the two phase calls
(`getACLentries` / `updateACLentries`). -/
def MainAction.isPhaseCall : MainAction → Bool
  | .fetchMergeCall _ _ => true
  | .planApplyCall _ _ => true
  | _ => false

/-- The action trace of the `__main__` block (lines 154-167) as written in
the source: the first loop prints the "Getting ..." line per service but its
`getACLentries` call on line 158 is commented out; the second loop prints the
"Updating ..." line per service but its `updateACLentries` call on line 163
is commented out; then "Done." is printed and the process exits 0.  No
`fetchMergeCall` or `planApplyCall` action is ever emitted. -/
def mainRun (svcids : List String) (aclname : String) : List MainAction :=
  (svcids.map fun svc => MainAction.printLine
    ("Getting '" ++ aclname ++ "' ACL entries from service '" ++ svc ++ "'...")) ++
  (svcids.map fun svc => MainAction.printLine
    ("Updating '" ++ aclname ++ "' ACL entries for service '" ++ svc ++ "'...")) ++
  [MainAction.printLine "\nDone.\n", MainAction.exitCode 0]

/-- Source service A's single raw entry in the end-to-end scenario:
`{ip:"10.0.0.1", subnet:null, comment:null}`. -/
def entryA : RawEntry := ⟨"10.0.0.1", Val.null, Val.null⟩

/-- Source service B's single raw entry in the end-to-end scenario:
`{ip:"10.0.0.1", subnet:24, comment:"vpn"}`. -/
def entryB : RawEntry := ⟨"10.0.0.1", Val.int 24, Val.str "vpn"⟩

/-- C1: merging service A's `{ip:"10.0.0.1", subnet:null, comment:null}` into
the empty consolidated set and then service B's
`{ip:"10.0.0.1", subnet:24, comment:"vpn"}` yields subnet 32 — not 24 as the
claim states.  A's null subnet is normalized to `32`, and the merge loop only
refills a subnet whose stored value is the string `"None"` (line 73), which a
normalized subnet never is, so B's 24 is discarded; only the comment
placeholder is filled from B. -/
theorem C1_merge_scenario_code_eval :
    mergeAll [entryB] (mergeAll [entryA] []) =
      [("10.0.0.1", ⟨Val.int 32, Val.str "vpn"⟩)] := by
  decide

/-- C3: merging `{ip:"1.2.3.4", subnet:"None", comment:"None"}` then
`{ip:"1.2.3.4", subnet:24, comment:"office"}` into the empty consolidated set
yields `{subnet:24, comment:"office"}` for that IP, and merging the same two
entries in the reverse order yields the same final consolidated set. -/
theorem C3_merge_pair_order_insensitive :
    (mergeAll [⟨"1.2.3.4", Val.str "None", Val.str "None"⟩,
               ⟨"1.2.3.4", Val.int 24, Val.str "office"⟩] [] =
        [("1.2.3.4", ⟨Val.int 24, Val.str "office"⟩)]) ∧
    (mergeAll [⟨"1.2.3.4", Val.int 24, Val.str "office"⟩,
               ⟨"1.2.3.4", Val.str "None", Val.str "None"⟩] [] =
        [("1.2.3.4", ⟨Val.int 24, Val.str "office"⟩)]) := by
  decide

/-- C2: the `__main__` block's trace never contains a fetch-and-merge or
plan-and-apply call, for any argument list: the `getACLentries` and
`updateACLentries` calls on lines 158 and 163 are commented out, so a run
with service ID "A" and ACL name "acl1" only prints progress lines and
exits 0. -/
theorem C2_main_never_invokes_phases :
    (mainRun ["A"] "acl1").all (fun a => !a.isPhaseCall) = true ∧
    mainRun ["A"] "acl1" =
      [MainAction.printLine "Getting 'acl1' ACL entries from service 'A'...",
       MainAction.printLine "Updating 'acl1' ACL entries for service 'A'...",
       MainAction.printLine "\nDone.\n", MainAction.exitCode 0] := by
  decide

/-- Looking up a key that is already bound is unaffected by appending further
bindings at the end of the dictionary. -/
theorem lookupIP_append_of_some (l : ConsSet) (ip : String) (ent : ConsEntry) :
    ∀ m : ConsSet, lookupIP m ip = some ent → lookupIP (m ++ l) ip = some ent := by
  intro m
  induction m with
  | nil => intro h; simp [lookupIP] at h
  | cons hd tl ih =>
      intro h
      obtain ⟨k, v⟩ := hd
      by_cases hk : k = ip
      · simp [lookupIP, hk] at h ⊢
        exact h
      · simp [lookupIP, hk] at h ⊢
        exact ih h

/-- Assigning a new value to a bound key makes lookup of that key return the
new value. -/
theorem lookupIP_updateIP_self (ip : String) (v : ConsEntry) :
    ∀ (m : ConsSet) (cur : ConsEntry), lookupIP m ip = some cur →
      lookupIP (updateIP m ip v) ip = some v := by
  intro m
  induction m with
  | nil => intro cur h; simp [lookupIP] at h
  | cons hd tl ih =>
      intro cur h
      obtain ⟨k, w⟩ := hd
      by_cases hk : k = ip
      · simp [lookupIP, updateIP, hk]
      · simp [lookupIP, updateIP, hk] at h ⊢
        exact ih cur h

/-- Assigning a value to one key leaves lookups of every other key unchanged. -/
theorem lookupIP_updateIP_of_ne (ip ip' : String) (v : ConsEntry) (hne : ip' ≠ ip) :
    ∀ m : ConsSet, lookupIP (updateIP m ip v) ip' = lookupIP m ip' := by
  intro m
  induction m with
  | nil => simp [updateIP, lookupIP]
  | cons hd tl ih =>
      obtain ⟨k, w⟩ := hd
      by_cases hk : k = ip
      · subst hk
        simp [updateIP, lookupIP, Ne.symm hne]
      · simp only [updateIP, if_neg hk, lookupIP]
        by_cases hk' : k = ip'
        · simp [hk']
        · simp [hk', ih]

/-- `mergeEntry` when the incoming IP is new: the normalized entry is appended
at the end (line 79). -/
theorem mergeEntry_of_lookup_none (m : ConsSet) (e : RawEntry)
    (hl : lookupIP m e.ip = none) :
    mergeEntry m e =
      m ++ [(e.ip, ⟨normalizeSubnet e.subnet, normalizeComment e.comment⟩)] := by
  simp [mergeEntry, hl]

/-- `mergeEntry` on an exact duplicate: the dictionary is unchanged
(lines 70-72). -/
theorem mergeEntry_of_lookup_dup (m : ConsSet) (e : RawEntry) (cur : ConsEntry)
    (hl : lookupIP m e.ip = some cur)
    (hdup : cur.subnet = normalizeSubnet e.subnet ∧
            cur.comment = normalizeComment e.comment) :
    mergeEntry m e = m := by
  simp [mergeEntry, hl, hdup]

/-- `mergeEntry` on a differing existing entry: each field is refilled exactly
when the stored value is the string `"None"` and the incoming one is not
(lines 73-76). -/
theorem mergeEntry_of_lookup_diff (m : ConsSet) (e : RawEntry) (cur : ConsEntry)
    (hl : lookupIP m e.ip = some cur)
    (hdup : ¬(cur.subnet = normalizeSubnet e.subnet ∧
              cur.comment = normalizeComment e.comment)) :
    mergeEntry m e = updateIP m e.ip
      ⟨if cur.subnet = Val.str "None" ∧ normalizeSubnet e.subnet ≠ Val.str "None"
          then normalizeSubnet e.subnet else cur.subnet,
        if cur.comment = Val.str "None" ∧ normalizeComment e.comment ≠ Val.str "None"
          then normalizeComment e.comment else cur.comment⟩ := by
  simp [mergeEntry, hl, hdup]

/-- One merge step never changes a stored subnet that is not the string
`"None"`, and never changes a stored comment that is not the string `"None"`,
for any IP. -/
theorem mergeEntry_lookup_preserve (m : ConsSet) (e : RawEntry) (ip : String)
    (ent : ConsEntry) (h : lookupIP m ip = some ent) :
    ∃ ent', lookupIP (mergeEntry m e) ip = some ent' ∧
      (ent.subnet ≠ Val.str "None" → ent'.subnet = ent.subnet) ∧
      (ent.comment ≠ Val.str "None" → ent'.comment = ent.comment) := by
  cases hl : lookupIP m e.ip with
  | none =>
      refine ⟨ent, ?_, fun _ => rfl, fun _ => rfl⟩
      rw [mergeEntry_of_lookup_none m e hl]
      exact lookupIP_append_of_some _ ip ent m h
  | some cur =>
      by_cases hdup : cur.subnet = normalizeSubnet e.subnet ∧
          cur.comment = normalizeComment e.comment
      · refine ⟨ent, ?_, fun _ => rfl, fun _ => rfl⟩
        rw [mergeEntry_of_lookup_dup m e cur hl hdup]
        exact h
      · rw [mergeEntry_of_lookup_diff m e cur hl hdup]
        by_cases hip : e.ip = ip
        · subst hip
          have hce : cur = ent := Option.some.inj (hl.symm.trans h)
          subst hce
          refine ⟨_, lookupIP_updateIP_self e.ip _ m cur hl, fun hns => ?_,
            fun hnc => ?_⟩
          · exact if_neg (fun hcond => hns hcond.1)
          · exact if_neg (fun hcond => hnc hcond.1)
        · refine ⟨ent, ?_, fun _ => rfl, fun _ => rfl⟩
          rw [lookupIP_updateIP_of_ne e.ip ip _ (fun hh => hip hh.symm) m]
          exact h

/-- C4: consolidated-set stickiness.  For every sequence of merged raw
entries, once the consolidated dictionary records a subnet or a comment that
is not the placeholder string `"None"` for some IP, every later merge leaves
that field exactly as it is: the merge loop overwrites a field only when the
stored value is the string `"None"` (lines 73-76), so the first
non-placeholder value for each field is kept for the rest of the run. -/
theorem C4_sticky_nonplaceholder_fields (es : List RawEntry) (m : ConsSet)
    (ip : String) (ent : ConsEntry) (h : lookupIP m ip = some ent) :
    ∃ ent', lookupIP (mergeAll es m) ip = some ent' ∧
      (ent.subnet ≠ Val.str "None" → ent'.subnet = ent.subnet) ∧
      (ent.comment ≠ Val.str "None" → ent'.comment = ent.comment) := by
  induction es generalizing m ent with
  | nil => exact ⟨ent, h, fun _ => rfl, fun _ => rfl⟩
  | cons e rest ih =>
      obtain ⟨ent₁, h₁, hs₁, hc₁⟩ := mergeEntry_lookup_preserve m e ip ent h
      obtain ⟨ent', h', hs', hc'⟩ := ih (mergeEntry m e) ent₁ h₁
      refine ⟨ent', h', fun hns => ?_, fun hnc => ?_⟩
      · have h1 : ent₁.subnet = ent.subnet := hs₁ hns
        have h2 : ent₁.subnet ≠ Val.str "None" := by rw [h1]; exact hns
        rw [hs' h2, h1]
      · have h1 : ent₁.comment = ent.comment := hc₁ hnc
        have h2 : ent₁.comment ≠ Val.str "None" := by rw [h1]; exact hnc
        rw [hc' h2, h1]

/-- Witness for C4 at a concrete input: the set holds a non-placeholder
subnet 24 and comment "x" for "1.2.3.4", and merging an entry for the same IP
leaves both fields unchanged. -/
theorem C4_sticky_nonplaceholder_fields_witness :
    ∃ ent', lookupIP
        (mergeAll [⟨"1.2.3.4", Val.int 16, Val.str "other"⟩]
          [("1.2.3.4", ⟨Val.int 24, Val.str "x"⟩)]) "1.2.3.4" = some ent' ∧
      ((⟨Val.int 24, Val.str "x"⟩ : ConsEntry).subnet ≠ Val.str "None" →
        ent'.subnet = (⟨Val.int 24, Val.str "x"⟩ : ConsEntry).subnet) ∧
      ((⟨Val.int 24, Val.str "x"⟩ : ConsEntry).comment ≠ Val.str "None" →
        ent'.comment = (⟨Val.int 24, Val.str "x"⟩ : ConsEntry).comment) :=
  C4_sticky_nonplaceholder_fields [⟨"1.2.3.4", Val.int 16, Val.str "other"⟩]
    [("1.2.3.4", ⟨Val.int 24, Val.str "x"⟩)] "1.2.3.4"
    ⟨Val.int 24, Val.str "x"⟩ (by decide)

/-- Membership in the planning fold: an operation is in the accumulated
payload exactly when it was already in the accumulator or some consolidated
pair planned it. -/
theorem planOps_foldl_mem (ex : LiveMap) (op : SyncOp) :
    ∀ (cons : ConsSet) (acc : List SyncOp),
      (op ∈ cons.foldl (fun payload pr => payload ++ planEntry ex pr.1 pr.2) acc ↔
        op ∈ acc ∨ ∃ pr ∈ cons, op ∈ planEntry ex pr.1 pr.2) := by
  intro cons
  induction cons with
  | nil => intro acc; simp
  | cons hd tl ih =>
      intro acc
      rw [List.foldl_cons, ih]
      constructor
      · rintro (h | h)
        · rcases List.mem_append.mp h with h | h
          · exact Or.inl h
          · exact Or.inr ⟨hd, List.mem_cons_self _ _, h⟩
        · obtain ⟨pr, hpr, hop⟩ := h
          exact Or.inr ⟨pr, List.mem_cons_of_mem _ hpr, hop⟩
      · rintro (h | h)
        · exact Or.inl (List.mem_append.mpr (Or.inl h))
        · obtain ⟨pr, hpr, hop⟩ := h
          rcases List.mem_cons.mp hpr with rfl | hpr
          · exact Or.inl (List.mem_append.mpr (Or.inr hop))
          · exact Or.inr ⟨pr, hpr, hop⟩

/-- An operation is planned exactly when some pair of the consolidated
dictionary plans it. -/
theorem mem_planOps_iff (cons : ConsSet) (ex : LiveMap) (op : SyncOp) :
    op ∈ planOps cons ex ↔ ∃ pr ∈ cons, op ∈ planEntry ex pr.1 pr.2 := by
  unfold planOps
  rw [planOps_foldl_mem]
  simp

/-- Every operation planned for a consolidated pair carries that pair's IP. -/
theorem planEntry_opIP (ex : LiveMap) (ip : String) (ce : ConsEntry)
    (op : SyncOp) (h : op ∈ planEntry ex ip ce) : op.opIP = ip := by
  unfold planEntry at h
  split at h
  · split at h
    · simp at h
    · simp at h
      subst h
      rfl
  · simp at h
    subst h
    rfl

/-- C5: diff-planner case analysis.  For a consolidated pair, the plan loop
emits exactly a `create` when the IP is absent from the live snapshot,
nothing when the live subnet and comment both match, and exactly an `update`
carrying the live entry's server-assigned id when they differ; in particular
live `{subnet:16, comment:"old", id:"xyz"}` against consolidated
`{subnet:24, comment:"vpn"}` for "10.0.0.1" plans exactly that update. -/
theorem C5_planner_case_analysis (ex : LiveMap) (ip : String) (ce : ConsEntry) :
    (lookupLive ex ip = none →
        planEntry ex ip ce = [SyncOp.create ip ce.subnet ce.comment]) ∧
    (∀ lv, lookupLive ex ip = some lv →
        (ce.subnet = lv.subnet ∧ ce.comment = lv.comment →
            planEntry ex ip ce = []) ∧
        (¬(ce.subnet = lv.subnet ∧ ce.comment = lv.comment) →
            planEntry ex ip ce = [SyncOp.update ip ce.subnet ce.comment lv.id])) ∧
    planOps [("10.0.0.1", ⟨Val.int 24, Val.str "vpn"⟩)]
        (buildExisting [⟨"10.0.0.1", "xyz", Val.int 16, Val.str "old"⟩]) =
      [SyncOp.update "10.0.0.1" (Val.int 24) (Val.str "vpn") "xyz"] := by
  refine ⟨fun h => ?_, fun lv h => ⟨fun hd => ?_, fun hd => ?_⟩, by decide⟩
  · simp [planEntry, h]
  · simp [planEntry, h, hd]
  · simp [planEntry, h, hd]

/-- Witness for C5 at a concrete input: against an empty live snapshot the
planner emits exactly one create. -/
theorem C5_planner_case_analysis_witness :
    planEntry [] "10.0.0.1" ⟨Val.int 24, Val.str "vpn"⟩ =
      [SyncOp.create "10.0.0.1" (Val.int 24) (Val.str "vpn")] :=
  (C5_planner_case_analysis [] "10.0.0.1" ⟨Val.int 24, Val.str "vpn"⟩).1 rfl

/-- C6: no deletions.  Every planned operation's IP is a key of the
consolidated dictionary: live entries whose IP is absent from the
consolidated set never give rise to any operation, because the plan loop
iterates only over the consolidated dictionary (line 104). -/
theorem C6_no_deletions (cons : ConsSet) (ex : LiveMap) (op : SyncOp)
    (h : op ∈ planOps cons ex) : op.opIP ∈ cons.map Prod.fst := by
  obtain ⟨pr, hpr, hop⟩ := (mem_planOps_iff cons ex op).mp h
  rw [planEntry_opIP ex pr.1 pr.2 op hop]
  exact List.mem_map.mpr ⟨pr, hpr, rfl⟩

/-- Witness for C6 at a concrete input: the one planned create for
"10.0.0.1" has its IP among the consolidated keys, even though the live
snapshot holds an unrelated IP "9.9.9.9" that plans nothing. -/
theorem C6_no_deletions_witness :
    (SyncOp.create "10.0.0.1" (Val.int 24) (Val.str "vpn")).opIP ∈
      ([("10.0.0.1", ⟨Val.int 24, Val.str "vpn"⟩)] : ConsSet).map Prod.fst :=
  C6_no_deletions [("10.0.0.1", ⟨Val.int 24, Val.str "vpn"⟩)]
    [("9.9.9.9", ⟨"id9", Val.int 32, Val.str "old"⟩)]
    (SyncOp.create "10.0.0.1" (Val.int 24) (Val.str "vpn")) (by decide)

/-- C7: write suppression on an empty plan.  If the planned payload is empty,
`updateACLentries` returns before the PATCH call (lines 125-126), so no write
call is issued; conversely any issued write call carries a non-empty payload. -/
theorem C7_write_suppressed_on_empty_plan (cons : ConsSet)
    (fetched : List LiveRaw) :
    (planOps cons (buildExisting fetched) = [] →
        updateACLapplyWrites cons fetched = []) ∧
    (∀ w ∈ updateACLapplyWrites cons fetched,
        planOps cons (buildExisting fetched) ≠ [] ∧ w.entries ≠ []) := by
  constructor
  · intro h
    simp [updateACLapplyWrites, h]
  · intro w hw
    by_cases h : (planOps cons (buildExisting fetched)).length = 0
    · simp [updateACLapplyWrites, h] at hw
    · simp only [updateACLapplyWrites, if_neg h, List.mem_singleton] at hw
      subst hw
      have hne : planOps cons (buildExisting fetched) ≠ [] := by
        intro hnil
        rw [hnil] at h
        exact h rfl
      exact ⟨hne, hne⟩

/-- Witness for C7 at a concrete input: with an empty consolidated set the
plan is empty and no write call is issued. -/
theorem C7_write_suppressed_on_empty_plan_witness :
    updateACLapplyWrites [] [] = [] :=
  (C7_write_suppressed_on_empty_plan [] []).1 rfl

/-- C8: fetch/write failure handling.  For every response whose status code
is not 200, `check_r` terminates the run with exit status 1 after printing
the error message and then the raw response body, so the diagnostic includes
the raw body; in particular the entries-fetch stage of `getACLentries`
returns an error carrying exit code 1 and those printed lines, and no merge
into the consolidated set is performed. -/
theorem C8_nonsuccess_aborts_with_body (resp : Response) (errormsg : String)
    (h : resp.status ≠ 200) :
    (check_r resp errormsg = CheckResult.abort 1 [errormsg, resp.text] ∧
      resp.text ∈ [errormsg, resp.text]) ∧
    (∀ (svcID aclNAME : String) (fetched : List RawEntry)
        (aclENTRIES : ConsSet),
      getACLentriesRun svcID aclNAME resp fetched aclENTRIES =
        Except.error (1, [entriesFetchErrMsg svcID aclNAME, resp.text])) := by
  have hc : ∀ msg, check_r resp msg = CheckResult.abort 1 [msg, resp.text] := by
    intro msg
    simp [check_r, h]
  refine ⟨⟨hc errormsg, by simp⟩, fun svcID aclNAME fetched aclENTRIES => ?_⟩
  simp [getACLentriesRun, hc]

/-- Witness for C8 at a concrete input: a 500 response with body "boom"
aborts with exit code 1 and the body among the printed lines. -/
theorem C8_nonsuccess_aborts_with_body_witness :
    (check_r ⟨500, "boom"⟩ "err" = CheckResult.abort 1 ["err", "boom"] ∧
      "boom" ∈ ["err", "boom"]) ∧
    (∀ (svcID aclNAME : String) (fetched : List RawEntry)
        (aclENTRIES : ConsSet),
      getACLentriesRun svcID aclNAME ⟨500, "boom"⟩ fetched aclENTRIES =
        Except.error (1, [entriesFetchErrMsg svcID aclNAME, "boom"])) :=
  C8_nonsuccess_aborts_with_body ⟨500, "boom"⟩ "err" (by decide)

/-- C9: normalization replaces any falsy present field, not only absent
ones.  A falsy subnet (`null`, `0`, `""`) becomes 32 and a falsy comment
becomes the string `"None"`, while every truthy value — including the
literal string `"None"` as a subnet — passes through unchanged. -/
theorem C9_normalization_replaces_falsy (v : Val) :
    (v.falsy = true →
        normalizeSubnet v = Val.int 32 ∧ normalizeComment v = Val.str "None") ∧
    (v.falsy = false → normalizeSubnet v = v ∧ normalizeComment v = v) ∧
    normalizeSubnet (Val.str "None") = Val.str "None" := by
  refine ⟨fun h => ?_, fun h => ?_, by decide⟩
  · simp [normalizeSubnet, normalizeComment, h]
  · simp [normalizeSubnet, normalizeComment, h]

/-- Witness for C9 at concrete inputs: a present subnet 0 is replaced by 32,
an empty-string comment is replaced by "None", and the truthy subnet 24 is
kept. -/
theorem C9_normalization_replaces_falsy_witness :
    (normalizeSubnet (Val.int 0) = Val.int 32 ∧
      normalizeComment (Val.int 0) = Val.str "None") ∧
    (normalizeSubnet (Val.str "") = Val.int 32 ∧
      normalizeComment (Val.str "") = Val.str "None") ∧
    (normalizeSubnet (Val.int 24) = Val.int 24 ∧
      normalizeComment (Val.int 24) = Val.int 24) :=
  ⟨(C9_normalization_replaces_falsy (Val.int 0)).1 (by decide),
    ⟨((C9_normalization_replaces_falsy (Val.str "")).1 (by decide)).1,
      ((C9_normalization_replaces_falsy (Val.str "")).1 (by decide)).2⟩,
    (C9_normalization_replaces_falsy (Val.int 24)).2.1 (by decide)⟩

/-- C10: the diff planner compares normalized consolidated values against
un-normalized live values.  `updateACLentries` copies the fetched live
subnet and comment verbatim (lines 96-101), so when the consolidated entry
holds a placeholder (`"None"` comment, or subnet 32) and the corresponding
live field is null/empty, the pair is judged different and an update
carrying the live id is planned rather than treated as already converged. -/
theorem C10_planner_compares_unnormalized_live (cons : ConsSet)
    (fetched : List LiveRaw) (ip : String) (ce : ConsEntry) (lv : LiveVal)
    (hc : (ip, ce) ∈ cons)
    (hl : lookupLive (buildExisting fetched) ip = some lv)
    (hdiff : (ce.comment = Val.str "None" ∧ lv.comment.falsy = true) ∨
             (ce.subnet = Val.int 32 ∧ lv.subnet = Val.null)) :
    SyncOp.update ip ce.subnet ce.comment lv.id ∈
      planOps cons (buildExisting fetched) := by
  have hne : ¬(ce.subnet = lv.subnet ∧ ce.comment = lv.comment) := by
    rcases hdiff with ⟨hce, hfalsy⟩ | ⟨hce, hnull⟩
    · rintro ⟨-, hcc⟩
      have hlc : lv.comment = Val.str "None" := hcc.symm.trans hce
      rw [hlc] at hfalsy
      simp [Val.falsy] at hfalsy
    · rintro ⟨hss, -⟩
      rw [hce, hnull] at hss
      exact Val.noConfusion hss
  refine (mem_planOps_iff cons _ _).mpr ⟨(ip, ce), hc, ?_⟩
  simp [planEntry, hl, hne]

/-- Witness for C10 at a concrete input: the consolidated placeholder comment
"None" against a live null comment plans an update with the live id "xyz". -/
theorem C10_planner_compares_unnormalized_live_witness :
    SyncOp.update "10.0.0.1" (Val.int 32) (Val.str "None") "xyz" ∈
      planOps [("10.0.0.1", ⟨Val.int 32, Val.str "None"⟩)]
        (buildExisting [⟨"10.0.0.1", "xyz", Val.int 32, Val.null⟩]) :=
  C10_planner_compares_unnormalized_live
    [("10.0.0.1", ⟨Val.int 32, Val.str "None"⟩)]
    [⟨"10.0.0.1", "xyz", Val.int 32, Val.null⟩] "10.0.0.1"
    ⟨Val.int 32, Val.str "None"⟩ ⟨"xyz", Val.int 32, Val.null⟩
    (by decide) (by decide) (Or.inl ⟨rfl, rfl⟩)

end SyncACL
